import Mathlib

/-!
Shallow embedding of the api-spec-drift-monitor-poc contract validation
engine (Rust sources under src/).  Pure functions of the source become Lean
functions; Rust `Result<T, ValidationError>` becomes `Except ValidationError T`;
Rust `HashMap`/`IndexMap` become association lists with overwrite-on-insert
semantics; the external `jsonschema` structural validator (an external
capability per the spec) is modelled as a pair of functions
(`is_valid`, `iter_errors`); JSON values are opaque to every embedded
function and are modelled by a small inductive type.
-/

namespace DriftMonitor

/-- Decoded JSON values.  Every embedded function treats them opaquely
(they are only handed to the structural validator), so a small inductive
with a few constructors suffices for concrete witnesses. -/
inductive Value where
  | null : Value
  | bool : Bool → Value
  | int : Int → Value
  | str : String → Value
  deriving DecidableEq, Repr

/-- src/error.rs `ValidationError`. -/
inductive ValidationError where
  | ValidationFailed : String → ValidationError
  | RequestBodyMissing : ValidationError
  | NoSchemaForStatusCode : Nat → ValidationError
  | SchemaCompilationError : String → ValidationError
  deriving DecidableEq, Repr

/-- src/drift_types.rs `DriftType`: the closed 15-variant drift taxonomy. -/
inductive DriftType where
  | ParameterTypeMismatch | RequestBodyTypeMismatch | ResponseBodyTypeMismatch
  | ParameterMissingRequired | RequestBodyMissingRequired | ResponseBodyMissingRequired
  | ParameterEnumViolation | RequestBodyEnumViolation | ResponseBodyEnumViolation
  | ParameterOneOfNoMatch | RequestBodyOneOfNoMatch | ResponseBodyOneOfNoMatch
  | ParameterAnyOfNoMatch | RequestBodyAnyOfNoMatch | ResponseBodyAnyOfNoMatch
  deriving DecidableEq, Repr

/-- src/drift_types.rs `DriftType::as_str`. -/
def DriftType.as_str : DriftType → String
  | .ParameterTypeMismatch => "PARAMETER_TYPE_MISMATCH"
  | .RequestBodyTypeMismatch => "REQUEST_BODY_TYPE_MISMATCH"
  | .ResponseBodyTypeMismatch => "RESPONSE_BODY_TYPE_MISMATCH"
  | .ParameterMissingRequired => "PARAMETER_MISSING_REQUIRED"
  | .RequestBodyMissingRequired => "REQUEST_BODY_MISSING_REQUIRED"
  | .ResponseBodyMissingRequired => "RESPONSE_BODY_MISSING_REQUIRED"
  | .ParameterEnumViolation => "PARAMETER_ENUM_VIOLATION"
  | .RequestBodyEnumViolation => "REQUEST_BODY_ENUM_VIOLATION"
  | .ResponseBodyEnumViolation => "RESPONSE_BODY_ENUM_VIOLATION"
  | .ParameterOneOfNoMatch => "PARAMETER_ONEOF_NO_MATCH"
  | .RequestBodyOneOfNoMatch => "REQUEST_BODY_ONEOF_NO_MATCH"
  | .ResponseBodyOneOfNoMatch => "RESPONSE_BODY_ONEOF_NO_MATCH"
  | .ParameterAnyOfNoMatch => "PARAMETER_ANYOF_NO_MATCH"
  | .RequestBodyAnyOfNoMatch => "REQUEST_BODY_ANYOF_NO_MATCH"
  | .ResponseBodyAnyOfNoMatch => "RESPONSE_BODY_ANYOF_NO_MATCH"

/-- src/drift_types.rs `ValidationContext`. -/
inductive ValidationContext where
  | Parameter | RequestBody | ResponseBody
  deriving DecidableEq, Repr

/-- The `jsonschema` crate's `ValidationErrorKind` (external collaborator).
`map_to_drift_type` matches every variant with its fields ignored
(`Kind { .. }`), so the variants are embedded payload-free; `Typ` embeds the
variant spelled `Type` in Rust (a reserved word in Lean). -/
inductive ValidationErrorKind where
  | AdditionalItems | AdditionalProperties | AnyOf | BacktrackLimitExceeded
  | Constant | Contains | ContentEncoding | ContentMediaType | Custom
  | Enum | ExclusiveMaximum | ExclusiveMinimum | FalseSchema | Format
  | FromUtf8 | MaxItems | Maximum | MaxLength | MaxProperties | MinItems
  | Minimum | MinLength | MinProperties | MultipleOf | Not
  | OneOfMultipleValid | OneOfNotValid | Pattern | PropertyNames
  | Referencing | Required | Typ | UnevaluatedItems | UnevaluatedProperties
  | UniqueItems
  deriving DecidableEq, Repr

/-- src/drift_types.rs `map_to_drift_type`: maps a structural finding kind to
a drift type based on context; unrecognized kinds map to none. -/
def map_to_drift_type (kind : ValidationErrorKind) (context : ValidationContext) :
    Option DriftType :=
  match kind with
  | .Typ => some (match context with
      | .Parameter => .ParameterTypeMismatch
      | .RequestBody => .RequestBodyTypeMismatch
      | .ResponseBody => .ResponseBodyTypeMismatch)
  | .Required => some (match context with
      | .Parameter => .ParameterMissingRequired
      | .RequestBody => .RequestBodyMissingRequired
      | .ResponseBody => .ResponseBodyMissingRequired)
  | .Enum => some (match context with
      | .Parameter => .ParameterEnumViolation
      | .RequestBody => .RequestBodyEnumViolation
      | .ResponseBody => .ResponseBodyEnumViolation)
  | .OneOfNotValid => some (match context with
      | .Parameter => .ParameterOneOfNoMatch
      | .RequestBody => .RequestBodyOneOfNoMatch
      | .ResponseBody => .ResponseBodyOneOfNoMatch)
  | .AnyOf => some (match context with
      | .Parameter => .ParameterAnyOfNoMatch
      | .RequestBody => .RequestBodyAnyOfNoMatch
      | .ResponseBody => .ResponseBodyAnyOfNoMatch)
  | _ => none

/-- The context prefix of a drift kind (the `Parameter`/`RequestBody`/
`ResponseBody` component of the variant name). -/
def DriftType.context : DriftType → ValidationContext
  | .ParameterTypeMismatch | .ParameterMissingRequired | .ParameterEnumViolation
  | .ParameterOneOfNoMatch | .ParameterAnyOfNoMatch => .Parameter
  | .RequestBodyTypeMismatch | .RequestBodyMissingRequired | .RequestBodyEnumViolation
  | .RequestBodyOneOfNoMatch | .RequestBodyAnyOfNoMatch => .RequestBody
  | .ResponseBodyTypeMismatch | .ResponseBodyMissingRequired | .ResponseBodyEnumViolation
  | .ResponseBodyOneOfNoMatch | .ResponseBodyAnyOfNoMatch => .ResponseBody

/-- src/validation_helpers.rs `format_drift_error`. -/
def format_drift_error (drift_type : DriftType) (location : String) (message : String) :
    String :=
  "[" ++ drift_type.as_str ++ "] at " ++ location ++ " - " ++ message

/-- src/validation_helpers.rs `format_instance_location`. -/
def format_instance_location (instance_path : String) (pre : String) : String :=
  if instance_path = "" then pre else pre ++ instance_path

/-- One structural violation reported by the external `jsonschema` validator:
its kind, its instance path rendered as a string (`e.instance_path.to_string()`)
and its display rendering (`e.to_string()`). -/
structure StructuralError where
  kind : ValidationErrorKind
  instance_path : String
  msg : String
  deriving DecidableEq, Repr

/-- The external structural schema validator capability (`jsonschema::Validator`):
`is_valid` plus a lazy sequence of structural violations (`iter_errors`). -/
structure Validator where
  is_valid : Value → Bool
  iter_errors : Value → List StructuralError

/-- src/validators/parameter.rs `ParameterValidator` (name, required flag,
compiled schema validator). -/
structure ParameterValidator where
  name : String
  required : Bool
  validator : Validator

/-- src/validators/parameter.rs `ParameterValidator::validate`. -/
def ParameterValidator.validate (self : ParameterValidator) (value : Value) :
    Except ValidationError Unit :=
  if self.validator.is_valid value then
    .ok ()
  else
    let drift_errors : List String :=
      (self.validator.iter_errors value).filterMap (fun e =>
        (map_to_drift_type e.kind .Parameter).map (fun drift_type =>
          let location :=
            if e.instance_path = "" then self.name
            else self.name ++ "[" ++ e.instance_path ++ "]"
          format_drift_error drift_type location e.msg))
    if drift_errors.isEmpty then
      .ok ()
    else
      .error (.ValidationFailed (String.intercalate "; " drift_errors))

/-- src/validators/parameter.rs `ParametersValidator`: one list of parameter
validators per location. -/
structure ParametersValidator where
  path : List ParameterValidator
  query : List ParameterValidator
  header : List ParameterValidator

/-- src/validators/parameter.rs `ParametersValidator::new` (Default). -/
def ParametersValidator.new : ParametersValidator := ⟨[], [], []⟩

/-- The observed name→value map handed to a parameter-set validate call
(`HashMap<String, Value>`), modelled as an association list. -/
def getParam : List (String × Value) → String → Option Value
  | [], _ => none
  | (k, v) :: rest, n => if k = n then some v else getParam rest n

/-- src/validators/parameter.rs `ParametersValidator::validate_parameters`:
the per-location loop (the `_location` argument of the source is unused and
omitted).  `for` + early `return` becomes structural recursion. -/
def ParametersValidator.validate_parameters
    (validators : List ParameterValidator) (params : List (String × Value)) :
    Except ValidationError Unit :=
  match validators with
  | [] => .ok ()
  | validator :: rest =>
    match getParam params validator.name with
    | some value => do
        validator.validate value
        ParametersValidator.validate_parameters rest params
    | none =>
      if validator.required then
        .error (.ValidationFailed (format_drift_error
          .ParameterMissingRequired
          validator.name
          ("Required parameter '" ++ validator.name ++ "' is missing")))
      else
        ParametersValidator.validate_parameters rest params

/-- src/validators/parameter.rs `ParametersValidator::validate_path`. -/
def ParametersValidator.validate_path (self : ParametersValidator)
    (params : List (String × Value)) : Except ValidationError Unit :=
  ParametersValidator.validate_parameters self.path params

/-- src/validators/parameter.rs `ParametersValidator::validate_query`. -/
def ParametersValidator.validate_query (self : ParametersValidator)
    (params : List (String × Value)) : Except ValidationError Unit :=
  ParametersValidator.validate_parameters self.query params

/-- src/validators/parameter.rs `ParametersValidator::validate_headers`. -/
def ParametersValidator.validate_headers (self : ParametersValidator)
    (params : List (String × Value)) : Except ValidationError Unit :=
  ParametersValidator.validate_parameters self.header params

/-- src/validators/request.rs `RequestBodyValidator`. -/
structure RequestBodyValidator where
  schema : Validator
  required : Bool

/-- src/validators/request.rs `RequestBodyValidator::validate`. -/
def RequestBodyValidator.validate (self : RequestBodyValidator)
    (body : Option Value) : Except ValidationError Unit :=
  match body with
  | none =>
    if self.required then
      .error (.ValidationFailed (format_drift_error
        .RequestBodyMissingRequired "body" "Request body is required but missing"))
    else
      .ok ()
  | some value =>
    if self.schema.is_valid value then
      .ok ()
    else
      let drift_errors : List String :=
        (self.schema.iter_errors value).filterMap (fun e =>
          (map_to_drift_type e.kind .RequestBody).map (fun drift_type =>
            let location := format_instance_location e.instance_path "body"
            format_drift_error drift_type location e.msg))
      if drift_errors.isEmpty then
        .ok ()
      else
        .error (.ValidationFailed (String.intercalate "; " drift_errors))

/-- src/validators/response.rs `ResponseValidator`: exact status-code map
(`HashMap<u16, Validator>`, modelled as an association list) plus an
optional default validator. -/
structure ResponseValidator where
  exact : List (Nat × Validator)
  default : Option Validator

/-- src/validators/response.rs `ResponseValidator::new`. -/
def ResponseValidator.new : ResponseValidator := ⟨[], none⟩

/-- `HashMap::get` on the exact status-code map. -/
def getStatus : List (Nat × Validator) → Nat → Option Validator
  | [], _ => none
  | (k, v) :: rest, n => if k = n then some v else getStatus rest n

/-- src/validators/response.rs `ResponseValidator::validate`: the validator is
selected (exact match, else default, else a `NoSchemaForStatusCode` error)
before the body is inspected. -/
def ResponseValidator.validate (self : ResponseValidator) (status_code : Nat)
    (body : Option Value) : Except ValidationError Unit :=
  match (getStatus self.exact status_code).or self.default with
  | none => .error (.NoSchemaForStatusCode status_code)
  | some validator =>
    match body with
    | some value =>
      if validator.is_valid value then
        .ok ()
      else
        let drift_errors : List String :=
          (validator.iter_errors value).filterMap (fun e =>
            (map_to_drift_type e.kind .ResponseBody).map (fun drift_type =>
              let location := format_instance_location e.instance_path "body"
              format_drift_error drift_type location e.msg))
        if drift_errors.isEmpty then
          .ok ()
        else
          .error (.ValidationFailed (String.intercalate "; " drift_errors))
    | none => .ok ()

/-- src/api_validator.rs `HttpMethod`: closed enumeration of OpenAPI methods. -/
inductive HttpMethod where
  | GET | POST | PUT | DELETE | PATCH | HEAD | OPTIONS | TRACE
  deriving DecidableEq, Repr

/-- src/api_validator.rs `HttpMethod::from_str` (case-insensitive). -/
def HttpMethod.from_str (s : String) : Option HttpMethod :=
  match s.toUpper with
  | "GET" => some .GET
  | "POST" => some .POST
  | "PUT" => some .PUT
  | "DELETE" => some .DELETE
  | "PATCH" => some .PATCH
  | "HEAD" => some .HEAD
  | "OPTIONS" => some .OPTIONS
  | "TRACE" => some .TRACE
  | _ => none

/-- src/api_validator.rs `HttpMethod::as_str`. -/
def HttpMethod.as_str : HttpMethod → String
  | .GET => "GET"
  | .POST => "POST"
  | .PUT => "PUT"
  | .DELETE => "DELETE"
  | .PATCH => "PATCH"
  | .HEAD => "HEAD"
  | .OPTIONS => "OPTIONS"
  | .TRACE => "TRACE"

/-- src/api_validator.rs `OperationValidator`: at most one request body
validator, exactly one response validator, exactly one parameter set
validator. -/
structure OperationValidator where
  request_body : Option RequestBodyValidator
  responses : ResponseValidator
  parameters : ParametersValidator

/-- src/api_validator.rs `OperationValidator::new`. -/
def OperationValidator.new (request_body : Option RequestBodyValidator)
    (responses : ResponseValidator) (parameters : ParametersValidator) :
    OperationValidator :=
  ⟨request_body, responses, parameters⟩

/-! ## Route index (the `matchit::Router` external collaborator)

A registered pattern is a list of segments; a `\x7bname\x7d` segment matches any
concrete segment and binds it, a literal segment matches itself.  The router
is modelled as the list of registered (pattern, value) entries searched in
order; `matchit`'s static-over-parameter matching priority and its
insert-conflict errors are not modelled (no embedded claim depends on
either). -/

/-- One segment of a registered path pattern. -/
inductive Seg where
  | lit : String → Seg
  | param : String → Seg
  deriving DecidableEq, Repr

/-- Rust `str::starts_with`, computed on the character list (Lean's own
`String.startsWith` is defined by well-founded recursion, which concrete
witnesses cannot evaluate). -/
def strStartsWith (s pre : String) : Bool := pre.data.isPrefixOf s.data

/-- Rust `str::ends_with`, computed on the character list. -/
def strEndsWith (s post : String) : Bool := post.data.isSuffixOf s.data

/-- Drop the first `n` characters (Rust slicing `&s[n..]` for ASCII input). -/
def strDrop (s : String) (n : Nat) : String := ⟨s.data.drop n⟩

/-- Drop the last `n` characters. -/
def strDropRight (s : String) (n : Nat) : String :=
  ⟨s.data.take (s.data.length - n)⟩

/-- Split a character list at a separator (the semantics of
`String.splitOn` for a one-character separator, kernel-computable). -/
def splitChar (sep : Char) : List Char → List (List Char)
  | [] => [[]]
  | c :: rest =>
    let r := splitChar sep rest
    if c = sep then [] :: r
    else
      match r with
      | [] => [[c]]
      | h :: t => (c :: h) :: t

/-- Does a pattern segment match a concrete path segment? -/
def seg_matches : Seg → String → Bool
  | .lit s, t => s == t
  | .param _, _ => true

/-- Does a pattern match a concrete segment list (same length, segmentwise)? -/
def pat_matches : List Seg → List String → Bool
  | [], [] => true
  | s :: ps, t :: ts => seg_matches s t && pat_matches ps ts
  | _, _ => false

/-- A concrete path split into segments. -/
def splitPath (path : String) : List String :=
  (splitChar '/' path.data).map (fun l => ⟨l⟩)

/-- Parse one pattern segment: `\x7bname\x7d` is a named parameter. -/
def parseSeg (s : String) : Seg :=
  if strStartsWith s "\x7b" && strEndsWith s "\x7d" then
    .param (strDropRight (strDrop s 1) 1)
  else .lit s

/-- Parse a registered path pattern into segments. -/
def parsePattern (path : String) : List Seg := (splitPath path).map parseSeg

/-- The name→value bindings a matched pattern extracts from a concrete path
(`matchit::Params`). -/
def extractParams : List Seg → List String → List (String × String)
  | .param n :: ps, t :: ts => (n, t) :: extractParams ps ts
  | .lit _ :: ps, _ :: ts => extractParams ps ts
  | _, _ => []

/-- One registered route: a pattern and the value stored for it. -/
structure RouterEntry (α : Type) where
  pattern : List Seg
  value : α

/-- `matchit::Router`: the registered entries, searched in order. -/
abbrev Router (α : Type) : Type := List (RouterEntry α)

/-- Index of the first registered pattern matching the concrete segments
(`Router::at_mut`'s entry selection). -/
def findMatch {α : Type} : Router α → List String → Option Nat
  | [], _ => none
  | e :: rest, segs =>
    if pat_matches e.pattern segs then some 0
    else (findMatch rest segs).map (· + 1)

/-- The first registered entry matching the concrete segments (`Router::at`). -/
def atEntry {α : Type} (r : Router α) (segs : List String) : Option (RouterEntry α) :=
  r.find? (fun e => pat_matches e.pattern segs)

/-- Replace the entry at an index. -/
def modifyIdx {β : Type} : List β → Nat → (β → β) → List β
  | [], _, _ => []
  | b :: rest, 0, f => f b :: rest
  | b :: rest, n + 1, f => b :: modifyIdx rest n f

/-- `HashMap<HttpMethod, OperationValidator>::get`. -/
def getMethod {α : Type} : List (HttpMethod × α) → HttpMethod → Option α
  | [], _ => none
  | (k, v) :: rest, m => if k = m then some v else getMethod rest m

/-- `HashMap<HttpMethod, OperationValidator>::insert`: overwrites any entry
already stored under the method. -/
def insertMethod {α : Type} (m : HttpMethod) (v : α) (ops : List (HttpMethod × α)) :
    List (HttpMethod × α) :=
  (m, v) :: ops.filter (fun q => decide (q.1 ≠ m))

/-- src/api_validator.rs `OperationMap`. -/
abbrev OperationMap : Type := List (HttpMethod × OperationValidator)

/-- src/api_validator.rs `ApiValidator`: a router from path patterns to
method maps. -/
structure ApiValidator where
  router : Router OperationMap

/-- src/api_validator.rs `ApiValidator::new`. -/
def ApiValidator.new : ApiValidator := ⟨[]⟩

/-- src/api_validator.rs `ApiValidator::add_operation`: if some registered
pattern matches the path the method is inserted (overwriting) into that
entry's method map, otherwise a fresh entry with a singleton map is
registered. -/
def ApiValidator.add_operation (self : ApiValidator) (path : String)
    (method : HttpMethod) (validator : OperationValidator) :
    Except ValidationError ApiValidator :=
  match findMatch self.router (splitPath path) with
  | some i =>
    .ok ⟨modifyIdx self.router i
      (fun e => ⟨e.pattern, insertMethod method validator e.value⟩)⟩
  | none =>
    .ok ⟨self.router ++ [⟨parsePattern path, insertMethod method validator []⟩]⟩

/-- src/api_validator.rs `ApiValidator::find_operation`. -/
def ApiValidator.find_operation (self : ApiValidator) (path : String)
    (method : HttpMethod) :
    Except ValidationError (OperationValidator × List (String × String)) :=
  match atEntry self.router (splitPath path) with
  | none => .error (.ValidationFailed ("No route found for path: " ++ path))
  | some matched =>
    match getMethod matched.value method with
    | none => .error (.ValidationFailed
        ("Method " ++ method.as_str ++ " not allowed for path: " ++ path))
    | some operation => .ok (operation, extractParams matched.pattern (splitPath path))

/-! ## The parsed contract (the `openapiv3` object model, an external
collaborator) and the contract compiler (src/spec). -/

/-- A contract-side schema, as handed to the external structural schema
compiler after serde serialization.  The compiler itself is out of scope
(spec §1), so a schema is modelled by its compilation behavior:
whether it compiles (`well_formed`), the compiled validator, and the
compiler's error rendering when it does not compile. -/
structure Schema where
  well_formed : Bool
  compiled : Validator
  err : String

/-- The `jsonschema` Registry built once per contract from the shared
components section and passed into every schema compilation.  Its contents
are consulted only by the external compiler, so it is modelled opaquely. -/
structure Registry where
  ofComponents ::

/-- src/validation_helpers.rs `build_validator`: compile a schema against the
shared registry, or fail with a compilation error naming the context. -/
def build_validator (schema : Schema) (_registry : Registry) (error_context : String) :
    Except ValidationError Validator :=
  if schema.well_formed then .ok schema.compiled
  else .error (.SchemaCompilationError
    ("Failed to compile schema for " ++ error_context ++ ": " ++ schema.err))

/-- src/spec/builder.rs `schema_to_json`: serde serialization of a schema
reference to a JSON value.  Serialization itself is external and modelled as
the identity (its failure path is not exercised by any embedded claim). -/
def schema_to_json (schema_ref : Schema) (_context : String) :
    Except ValidationError Schema :=
  .ok schema_ref

/-- `openapiv3::ReferenceOr`: an inline definition or a `$ref` string. -/
inductive ReferenceOr (T : Type) where
  | Item : T → ReferenceOr T
  | Reference : String → ReferenceOr T

/-- `openapiv3::ReferenceOr::as_item`. -/
def ReferenceOr.as_item {T : Type} : ReferenceOr T → Option T
  | .Item t => some t
  | .Reference _ => none

/-- Generic association-list lookup (`IndexMap::get`). -/
def assocGet {β : Type} : List (String × β) → String → Option β
  | [], _ => none
  | (k, v) :: rest, n => if k = n then some v else assocGet rest n

/-- `openapiv3::MediaType` (only its schema member is consulted). -/
structure MediaType where
  schema : Option Schema

/-- `openapiv3::RequestBody`. -/
structure RequestBody where
  content : List (String × MediaType)
  required : Bool

/-- `openapiv3::Response` (only its content member is consulted). -/
structure Response where
  content : List (String × MediaType)

/-- `openapiv3::ParameterSchemaOrContent`. -/
inductive ParameterSchemaOrContent where
  | Schema : Schema → ParameterSchemaOrContent
  | Content : ParameterSchemaOrContent

/-- `openapiv3::ParameterData` (the members the builder consults). -/
structure ParameterData where
  name : String
  required : Bool
  format : ParameterSchemaOrContent

/-- `openapiv3::Parameter`: one variant per parameter location. -/
inductive Parameter where
  | Query : ParameterData → Parameter
  | Path : ParameterData → Parameter
  | Header : ParameterData → Parameter
  | Cookie : ParameterData → Parameter

/-- `openapiv3::StatusCode`. -/
inductive StatusCode where
  | Code : Nat → StatusCode
  | Range : Nat → StatusCode

/-- `openapiv3::Responses`. -/
structure Responses where
  default : Option (ReferenceOr Response)
  responses : List (StatusCode × ReferenceOr Response)

/-- `openapiv3::Operation` (the members the builder consults). -/
structure Operation where
  parameters : List (ReferenceOr Parameter)
  request_body : Option (ReferenceOr RequestBody)
  responses : Responses

/-- `openapiv3::PathItem`, modelled as what `PathItem::iter` yields: the
(method name, operation) pairs of the operations present on the path. -/
structure PathItem where
  operations : List (String × Operation)

/-- `openapiv3::Components`: the shared components section, keyed by
category. -/
structure Components where
  parameters : List (String × ReferenceOr Parameter)
  request_bodies : List (String × ReferenceOr RequestBody)
  responses : List (String × ReferenceOr Response)

/-- `openapiv3::OpenAPI` (the members the engine consults).  `components`
is an `Option` that serde skips when absent, so the serialized spec JSON has
a `components` key iff `components` is `some`. -/
structure OpenAPI where
  paths : List (String × ReferenceOr PathItem)
  components : Option Components

/-- src/spec/reference_resolver.rs `resolve_logic`: inline entries are
returned unchanged; a reference must carry the expected category prefix,
is then looked up components section → category sub-map → name, and must
name an inline definition (one hop only). -/
def resolve_logic {T : Type} (ref_or : ReferenceOr T) (spec : OpenAPI)
    (pre : String)
    (selector : Components → Option (List (String × ReferenceOr T))) :
    Except ValidationError T :=
  match ref_or with
  | .Item item => .ok item
  | .Reference reference =>
    if ¬ strStartsWith reference pre then
      .error (.SchemaCompilationError
        ("Invalid reference: " ++ reference ++ ". Expected prefix: " ++ pre))
    else
      let name := strDrop reference pre.length
      match (((spec.components.bind selector).bind
          (fun map => assocGet map name)).bind ReferenceOr.as_item) with
      | some item => .ok item
      | none => .error (.SchemaCompilationError ("Reference not found: " ++ reference))

/-- src/spec/reference_resolver.rs `impl ResolveReference<Parameter>`. -/
def resolveParameter (r : ReferenceOr Parameter) (spec : OpenAPI) :
    Except ValidationError Parameter :=
  resolve_logic r spec "#/components/parameters/" (fun c => some c.parameters)

/-- src/spec/reference_resolver.rs `impl ResolveReference<RequestBody>`. -/
def resolveRequestBody (r : ReferenceOr RequestBody) (spec : OpenAPI) :
    Except ValidationError RequestBody :=
  resolve_logic r spec "#/components/requestBodies/" (fun c => some c.request_bodies)

/-- src/spec/reference_resolver.rs `impl ResolveReference<Response>`. -/
def resolveResponse (r : ReferenceOr Response) (spec : OpenAPI) :
    Except ValidationError Response :=
  resolve_logic r spec "#/components/responses/" (fun c => some c.responses)

/-- src/spec/builder.rs `extract_json_schema`: only the `application/json`
media type is consulted; its absence, or an absent schema member, is a
compilation error. -/
def extract_json_schema (content : List (String × MediaType)) (context : String) :
    Except ValidationError Schema := do
  let media_type ← match assocGet content "application/json" with
    | some mt => Except.ok mt
    | none => Except.error (.SchemaCompilationError
        (context ++ " must have application/json content"))
  let schema_ref ← match media_type.schema with
    | some s => Except.ok s
    | none => Except.error (.SchemaCompilationError (context ++ " schema is missing"))
  schema_to_json schema_ref context

/-- src/spec/builder.rs `build_registry`: the serialized spec must hold a
`components` key (absent iff the contract has no shared-components section);
the external Resource/Registry construction over it is modelled as
succeeding. -/
def build_registry (spec : OpenAPI) : Except ValidationError Registry :=
  match spec.components with
  | none => .error (.SchemaCompilationError "No components section in spec")
  | some _ => .ok Registry.ofComponents

/-- src/validators/parameter.rs `ParameterValidator::new`. -/
def ParameterValidator.new (name : String) (required : Bool) (schema : Schema)
    (registry : Registry) : Except ValidationError ParameterValidator := do
  let validator ← build_validator schema registry ("parameter '" ++ name ++ "'")
  .ok ⟨name, required, validator⟩

/-- src/validators/request.rs `RequestBodyValidator::new`. -/
def RequestBodyValidator.new (schema_value : Schema) (required : Bool)
    (registry : Registry) : Except ValidationError RequestBodyValidator := do
  let schema ← build_validator schema_value registry "request body"
  .ok ⟨schema, required⟩

/-- `HashMap<u16, Validator>::insert` (overwrites). -/
def insertStatus (code : Nat) (v : Validator) (exact : List (Nat × Validator)) :
    List (Nat × Validator) :=
  (code, v) :: exact.filter (fun q => decide (q.1 ≠ code))

/-- src/validators/response.rs `ResponseValidator::add_response`. -/
def ResponseValidator.add_response (self : ResponseValidator) (status_code : Nat)
    (schema : Schema) (registry : Registry) :
    Except ValidationError ResponseValidator := do
  let validator ← build_validator schema registry ("response " ++ toString status_code)
  .ok { self with exact := insertStatus status_code validator self.exact }

/-- src/validators/response.rs `ResponseValidator::set_default`. -/
def ResponseValidator.set_default (self : ResponseValidator) (schema : Schema)
    (registry : Registry) : Except ValidationError ResponseValidator := do
  let validator ← build_validator schema registry "default response"
  .ok { self with default := some validator }

/-- src/validators/parameter.rs `ParametersValidator::add_path_parameter`
(`Vec::push`). -/
def ParametersValidator.add_path_parameter (self : ParametersValidator)
    (validator : ParameterValidator) : ParametersValidator :=
  { self with path := self.path ++ [validator] }

/-- src/validators/parameter.rs `ParametersValidator::add_query_parameter`. -/
def ParametersValidator.add_query_parameter (self : ParametersValidator)
    (validator : ParameterValidator) : ParametersValidator :=
  { self with query := self.query ++ [validator] }

/-- src/validators/parameter.rs `ParametersValidator::add_header_parameter`. -/
def ParametersValidator.add_header_parameter (self : ParametersValidator)
    (validator : ParameterValidator) : ParametersValidator :=
  { self with header := self.header ++ [validator] }

/-- The shared tail of src/spec/builder.rs `build_parameters_validator`'s loop
body for the locations it does not skip: reject content-based parameters,
serialize the schema, compile the single-parameter validator. -/
def compile_parameter (registry : Registry) (parameter_data : ParameterData) :
    Except ValidationError ParameterValidator := do
  let schema_ref ← match parameter_data.format with
    | .Schema s => Except.ok s
    | .Content => Except.error (.SchemaCompilationError
        "Content-based parameters not supported")
  let schema_json ← schema_to_json schema_ref "parameter"
  ParameterValidator.new parameter_data.name parameter_data.required schema_json registry

/-- The loop of src/spec/builder.rs `build_parameters_validator` as structural
recursion.  The source's first `match` extracts `parameter_data` for `Query`
and `Path` only and `continue`s on `Header | Cookie`; its second `match`
dispatches to the location-specific add method (whose `Header` arm is
therefore unreachable). -/
def build_parameters_loop (spec : OpenAPI) (registry : Registry) :
    List (ReferenceOr Parameter) → ParametersValidator →
    Except ValidationError ParametersValidator
  | [], acc => .ok acc
  | parameter_ref :: rest, acc => do
    let parameter ← resolveParameter parameter_ref spec
    match parameter with
    | .Header _ => build_parameters_loop spec registry rest acc
    | .Cookie _ => build_parameters_loop spec registry rest acc
    | .Query parameter_data => do
      let param_validator ← compile_parameter registry parameter_data
      build_parameters_loop spec registry rest (acc.add_query_parameter param_validator)
    | .Path parameter_data => do
      let param_validator ← compile_parameter registry parameter_data
      build_parameters_loop spec registry rest (acc.add_path_parameter param_validator)

/-- src/spec/builder.rs `build_parameters_validator`. -/
def build_parameters_validator (spec : OpenAPI) (registry : Registry)
    (parameters : List (ReferenceOr Parameter)) :
    Except ValidationError ParametersValidator :=
  build_parameters_loop spec registry parameters ParametersValidator.new

/-- src/spec/builder.rs `build_request_body_validator`. -/
def build_request_body_validator (spec : OpenAPI) (registry : Registry)
    (request_body_ref : ReferenceOr RequestBody) :
    Except ValidationError RequestBodyValidator := do
  let request_body ← resolveRequestBody request_body_ref spec
  let schema_json ← extract_json_schema request_body.content "request body"
  RequestBodyValidator.new schema_json request_body.required registry

/-- The per-status loop of src/spec/builder.rs `build_response_validator`:
status ranges are skipped, a failing `extract_json_schema` is dropped
(`if let Ok`), a failing `add_response` aborts. -/
def build_responses_loop (spec : OpenAPI) (registry : Registry) :
    List (StatusCode × ReferenceOr Response) → ResponseValidator →
    Except ValidationError ResponseValidator
  | [], acc => .ok acc
  | (status_code_str, response_ref) :: rest, acc =>
    match status_code_str with
    | .Range _ => build_responses_loop spec registry rest acc
    | .Code status_code => do
      let response ← resolveResponse response_ref spec
      if response.content.isEmpty then
        build_responses_loop spec registry rest acc
      else
        match extract_json_schema response.content "response" with
        | .ok schema_json => do
          let acc' ← acc.add_response status_code schema_json registry
          build_responses_loop spec registry rest acc'
        | .error _ => build_responses_loop spec registry rest acc

/-- src/spec/builder.rs `build_response_validator`. -/
def build_response_validator (spec : OpenAPI) (registry : Registry)
    (responses : Responses) : Except ValidationError ResponseValidator := do
  let response_validator ← build_responses_loop spec registry responses.responses
    ResponseValidator.new
  match responses.default with
  | none => .ok response_validator
  | some default_response_ref => do
    let default_response ← resolveResponse default_response_ref spec
    if default_response.content.isEmpty then
      .ok response_validator
    else
      match extract_json_schema default_response.content "default response" with
      | .ok schema_json => response_validator.set_default schema_json registry
      | .error _ => .ok response_validator

/-- src/spec/builder.rs `build_operation_validator`. -/
def build_operation_validator (spec : OpenAPI) (registry : Registry)
    (operation : Operation) : Except ValidationError OperationValidator := do
  let parameters_validator ← build_parameters_validator spec registry
    operation.parameters
  let request_body_validator ← match operation.request_body with
    | some request_body => do
      let v ← build_request_body_validator spec registry request_body
      Except.ok (some v)
    | none => Except.ok none
  let response_validator ← build_response_validator spec registry
    operation.responses
  .ok (OperationValidator.new request_body_validator response_validator
    parameters_validator)

/-- Modelled from the spec: `ApiValidator::add_path_operations` is called by
the contract compiler (src/spec/builder.rs line 110) but is not defined in
src/api_validator.rs.  The spec's Route Index contract (§4.8, §4.7) is
`register(pattern, method_map)`: the route index is populated with the whole
method map under the path pattern. -/
def ApiValidator.add_path_operations (self : ApiValidator) (path : String)
    (operations : OperationMap) : Except ValidationError ApiValidator :=
  .ok ⟨self.router ++ [⟨parsePattern path, operations⟩]⟩

/-- The per-method loop of src/spec/builder.rs `build_api_validator`:
parse the method token, build the operation validator, insert into the
path's method map (progress printing omitted: console output only). -/
def build_operations_loop (spec : OpenAPI) (registry : Registry) :
    List (String × Operation) → OperationMap →
    Except ValidationError OperationMap
  | [], acc => .ok acc
  | (method_str, operation) :: rest, acc => do
    let method ← match HttpMethod.from_str method_str with
      | some m => Except.ok m
      | none => Except.error (.SchemaCompilationError
          ("Unknown HTTP method: " ++ method_str))
    let validator ← build_operation_validator spec registry operation
    build_operations_loop spec registry rest (insertMethod method validator acc)

/-- The per-path loop of src/spec/builder.rs `build_api_validator`: a
referenced path item is skipped with a warning, an inline one has its
operations compiled and registered. -/
def build_paths_loop (spec : OpenAPI) (registry : Registry) :
    List (String × ReferenceOr PathItem) → ApiValidator →
    Except ValidationError ApiValidator
  | [], acc => .ok acc
  | (path, path_item_ref) :: rest, acc =>
    match path_item_ref with
    | .Reference _ => build_paths_loop spec registry rest acc
    | .Item path_item => do
      let operations_map ← build_operations_loop spec registry
        path_item.operations []
      let acc' ← acc.add_path_operations path operations_map
      build_paths_loop spec registry rest acc'

/-- src/spec/builder.rs `build_api_validator`: build the shared registry,
then walk every path (the operation count and progress printing affect only
console output and are omitted). -/
def build_api_validator (spec : OpenAPI) : Except ValidationError ApiValidator := do
  let api_validator := ApiValidator.new
  let registry ← build_registry spec
  build_paths_loop spec registry spec.paths api_validator

/-! ## Concrete fixtures used by witnesses and counterexamples -/

/-- A structural validator that accepts every value. -/
def passAll : Validator := ⟨fun _ => true, fun _ => []⟩

/-- A well-formed contract schema compiling to `passAll`. -/
def okSchema : Schema := ⟨true, passAll, ""⟩

/-- A structural validator rejecting every value with a single finding of an
unrecognized kind (a format violation). -/
def formatOnlyInvalid : Validator :=
  ⟨fun _ => false, fun _ => [⟨.Format, "", "format violation"⟩]⟩

/-- A structural validator rejecting every value with a single type-mismatch
finding. -/
def typeInvalid : Validator :=
  ⟨fun _ => false, fun _ => [⟨.Typ, "", "type mismatch"⟩]⟩

/-! ## Theorems -/

/-- Reduction of the `Except` monad's bind at an ok value. -/
theorem exceptBindOk {ε α β : Type} (a : α) (f : α → Except ε β) :
    (Except.ok a : Except ε α) >>= f = f a := rfl

/-- Reduction of the `Except` monad's bind at an error. -/
theorem exceptBindError {ε α β : Type} (e : ε) (f : α → Except ε β) :
    (Except.error e : Except ε α) >>= f = Except.error e := rfl

/-- `extract_json_schema` on a content map with no `application/json` entry. -/
theorem extract_json_schema_no_json {content : List (String × MediaType)}
    {context : String} (h : assocGet content "application/json" = none) :
    extract_json_schema content context =
      .error (.SchemaCompilationError (context ++ " must have application/json content")) := by
  unfold extract_json_schema
  simp only [h]
  rfl

/-- C6: the drift classifier recognizes exactly the five structural finding
kinds (type mismatch, missing-required, enum violation, oneOf-no-match,
anyOf-no-match), returns none on every other kind, and always projects onto
a drift kind whose context prefix is the context argument. -/
theorem c6_classifier_exactly_five_kinds_context_preserving :
    ∀ (kind : ValidationErrorKind) (context : ValidationContext),
      ((map_to_drift_type kind context).isSome = true ↔
        (kind = .Typ ∨ kind = .Required ∨ kind = .Enum ∨
          kind = .OneOfNotValid ∨ kind = .AnyOf)) ∧
      ∀ drift : DriftType, map_to_drift_type kind context = some drift →
        drift.context = context := by
  intro kind context
  refine ⟨?_, ?_⟩
  · cases kind <;> cases context <;> simp [map_to_drift_type]
  · intro drift h
    cases kind <;> cases context <;>
      simp only [map_to_drift_type, Option.some.injEq, reduceCtorEq] at h <;>
      first
      | exact absurd h (by simp)
      | (subst h; rfl)

/-- Witness for C6 at the type-mismatch kind in parameter context. -/
theorem c6_witness :
    DriftType.context .ParameterTypeMismatch = ValidationContext.Parameter ∧
    (map_to_drift_type .Typ .Parameter).isSome = true :=
  ⟨(c6_classifier_exactly_five_kinds_context_preserving .Typ .Parameter).2
      .ParameterTypeMismatch rfl,
    ((c6_classifier_exactly_five_kinds_context_preserving .Typ .Parameter).1).mpr
      (Or.inl rfl)⟩

/-- C2 (amended): a response validate call with `None` body succeeds whenever
a schema is selected (exact status match or default); when neither an exact
nor a default schema is selected it fails with `NoSchemaForStatusCode`
regardless of the body, `None` included. -/
theorem c2_none_body_succeeds_only_with_selected_schema :
    (∀ (rv : ResponseValidator) (status_code : Nat) (validator : Validator),
      (getStatus rv.exact status_code).or rv.default = some validator →
      rv.validate status_code none = .ok ()) ∧
    (∀ (rv : ResponseValidator) (status_code : Nat) (body : Option Value),
      (getStatus rv.exact status_code).or rv.default = none →
      rv.validate status_code body = .error (.NoSchemaForStatusCode status_code)) := by
  constructor
  · intro rv status_code validator h
    unfold ResponseValidator.validate
    rw [h]
  · intro rv status_code body h
    unfold ResponseValidator.validate
    rw [h]

/-- Witness for C2: with a schema registered for 200, a 200/`None` call
succeeds; with no schema for 404 and no default, any 404 call fails with the
status-code error. -/
theorem c2_witness :
    (ResponseValidator.mk [(200, passAll)] none).validate 200 none = .ok () ∧
    (ResponseValidator.mk [(200, passAll)] none).validate 404 (some (.int 1)) =
      .error (.NoSchemaForStatusCode 404) :=
  ⟨c2_none_body_succeeds_only_with_selected_schema.1 _ 200 passAll rfl,
    c2_none_body_succeeds_only_with_selected_schema.2 _ 404 _ rfl⟩

/-- Counterexample to C2 as stated: an empty response validator (no exact
schema, no default) called with status 204 and `None` body returns the
`NoSchemaForStatusCode` error, not success — schema selection happens before
the body is inspected. -/
theorem c2_counterexample :
    ResponseValidator.new.validate 204 none = .error (.NoSchemaForStatusCode 204) :=
  rfl

/-- C4 (amended): for every contract with no shared-components section the
build always fails with the "No components section in spec" compilation
error — even when the contract holds no references and every schema
independently compiles — because the registry is built from the serialized
`components` key before any schema is compiled. -/
theorem c4_no_components_section_build_always_fails :
    ∀ spec : OpenAPI, spec.components = none →
      build_api_validator spec =
        .error (.SchemaCompilationError "No components section in spec") := by
  intro spec h
  unfold build_api_validator build_registry
  rw [h]
  rfl

/-- Witness for C4 at the empty contract with no components section. -/
theorem c4_witness :
    build_api_validator ⟨[], none⟩ =
      .error (.SchemaCompilationError "No components section in spec") :=
  c4_no_components_section_build_always_fails ⟨[], none⟩ rfl

/-- Counterexample to C4 as stated: a contract with one schemaless operation,
no components section and no references — every schema in it (there are
none) independently compiles, yet the build fails instead of succeeding. -/
theorem c4_counterexample :
    build_api_validator
        ⟨[("/ping", .Item ⟨[("get", ⟨[], none, ⟨none, []⟩⟩)]⟩)], none⟩ =
      .error (.SchemaCompilationError "No components section in spec") :=
  rfl

/-- C5 (amended): an operation request body whose content map has no
`application/json` entry is not silently ignored: `build_request_body_validator`
fails the build with the "must have application/json content" compilation
error (no "no schema" validator is produced). -/
theorem c5_nonjson_request_body_fails_build :
    ∀ (spec : OpenAPI) (registry : Registry)
      (request_body_ref : ReferenceOr RequestBody) (request_body : RequestBody),
      resolveRequestBody request_body_ref spec = .ok request_body →
      assocGet request_body.content "application/json" = none →
      build_request_body_validator spec registry request_body_ref =
        .error (.SchemaCompilationError
          "request body must have application/json content") := by
  intro spec registry request_body_ref request_body hres hjson
  unfold build_request_body_validator
  rw [hres]
  simp only [exceptBindOk]
  rw [extract_json_schema_no_json hjson]
  rfl

/-- A request body whose only media type is `text/plain`. -/
def textPlainRequestBody : RequestBody := ⟨[("text/plain", ⟨none⟩)], false⟩

/-- Witness for C5 at a `text/plain`-only inline request body. -/
theorem c5_witness :
    build_request_body_validator ⟨[], some ⟨[], [], []⟩⟩ Registry.ofComponents
        (.Item textPlainRequestBody) =
      .error (.SchemaCompilationError
        "request body must have application/json content") :=
  c5_nonjson_request_body_fails_build _ _ _ _ rfl rfl

/-- Counterexample to C5 as stated: compiling a `text/plain`-only request body
returns a compilation error — the build fails rather than compiling it as
"no schema". -/
theorem c5_counterexample :
    build_request_body_validator ⟨[], none⟩ Registry.ofComponents
        (.Item textPlainRequestBody) =
      .error (.SchemaCompilationError
        "request body must have application/json content") :=
  rfl

/-- C8: contract reference resolution returns inline entries unchanged;
a reference without the category prefix fails naming the reference and the
expected prefix; a missing components section, missing category sub-map,
missing name, or a name bound to another indirection (one hop only) fails
with "Reference not found" naming the original reference; otherwise the
named inline definition is returned. -/
theorem c8_resolve_logic_behavior :
    ∀ (T : Type) (spec : OpenAPI) (pre : String)
      (selector : Components → Option (List (String × ReferenceOr T))),
      (∀ item : T, resolve_logic (.Item item) spec pre selector = .ok item) ∧
      (∀ reference : String, strStartsWith reference pre = false →
        resolve_logic (.Reference reference) spec pre selector =
          .error (.SchemaCompilationError
            ("Invalid reference: " ++ reference ++ ". Expected prefix: " ++ pre))) ∧
      (∀ reference : String, strStartsWith reference pre = true →
        (spec.components = none ∨
          (∃ c, spec.components = some c ∧ selector c = none) ∨
          (∃ c map, spec.components = some c ∧ selector c = some map ∧
            assocGet map (strDrop reference pre.length) = none) ∨
          (∃ c map r', spec.components = some c ∧ selector c = some map ∧
            assocGet map (strDrop reference pre.length) = some (.Reference r'))) →
        resolve_logic (.Reference reference) spec pre selector =
          .error (.SchemaCompilationError ("Reference not found: " ++ reference))) ∧
      (∀ (reference : String) (item : T) (c : Components)
        (map : List (String × ReferenceOr T)),
        strStartsWith reference pre = true →
        spec.components = some c → selector c = some map →
        assocGet map (strDrop reference pre.length) = some (.Item item) →
        resolve_logic (.Reference reference) spec pre selector = .ok item) := by
  intro T spec pre selector
  refine ⟨fun item => rfl, ?_, ?_, ?_⟩
  · intro reference h
    unfold resolve_logic
    simp [h]
  · intro reference hsw hcase
    unfold resolve_logic
    rcases hcase with h1 | ⟨c, hc, hsel⟩ | ⟨c, map, hc, hsel, hget⟩ |
      ⟨c, map, r', hc, hsel, hget⟩
    · simp [hsw, h1]
    · simp [hsw, hc, hsel]
    · simp [hsw, hc, hsel, hget]
    · simp [hsw, hc, hsel, hget, ReferenceOr.as_item]
  · intro reference item c map hsw hc hsel hget
    unfold resolve_logic
    simp [hsw, hc, hsel, hget, ReferenceOr.as_item]

/-- An inline sample parameter used in reference-resolution fixtures. -/
def sampleParameter : Parameter := .Query ⟨"page", false, .Schema okSchema⟩

/-- A components section holding one inline parameter and one indirect one. -/
def sampleComponents : Components :=
  ⟨[("Good", .Item sampleParameter),
    ("Hop", .Reference "#/components/parameters/Good")], [], []⟩

/-- A contract whose components section is `sampleComponents`. -/
def sampleSpec : OpenAPI := ⟨[], some sampleComponents⟩

/-- The parameters-category selector (as in the `ResolveReference<Parameter>`
impl). -/
def paramsSelector : Components → Option (List (String × ReferenceOr Parameter)) :=
  fun c => some c.parameters

set_option maxRecDepth 8000 in
/-- Witness for C8: inline pass-through, prefix mismatch, missing name,
one-hop-only rejection of a nested indirection, and successful lookup. -/
theorem c8_witness :
    resolve_logic (.Item sampleParameter) sampleSpec "#/components/parameters/"
        paramsSelector = .ok sampleParameter ∧
    resolve_logic (ReferenceOr.Reference "#/components/schemas/Good") sampleSpec
        "#/components/parameters/" paramsSelector =
      .error (.SchemaCompilationError ("Invalid reference: " ++
        "#/components/schemas/Good" ++ ". Expected prefix: " ++
        "#/components/parameters/")) ∧
    resolve_logic (ReferenceOr.Reference "#/components/parameters/Missing")
        sampleSpec "#/components/parameters/" paramsSelector =
      .error (.SchemaCompilationError
        ("Reference not found: " ++ "#/components/parameters/Missing")) ∧
    resolve_logic (ReferenceOr.Reference "#/components/parameters/Hop")
        sampleSpec "#/components/parameters/" paramsSelector =
      .error (.SchemaCompilationError
        ("Reference not found: " ++ "#/components/parameters/Hop")) ∧
    resolve_logic (ReferenceOr.Reference "#/components/parameters/Good")
        sampleSpec "#/components/parameters/" paramsSelector =
      .ok sampleParameter :=
  ⟨(c8_resolve_logic_behavior Parameter sampleSpec "#/components/parameters/"
      paramsSelector).1 sampleParameter,
    (c8_resolve_logic_behavior Parameter sampleSpec "#/components/parameters/"
      paramsSelector).2.1 "#/components/schemas/Good" (by decide),
    (c8_resolve_logic_behavior Parameter sampleSpec "#/components/parameters/"
      paramsSelector).2.2.1 "#/components/parameters/Missing" (by decide)
      (Or.inr (Or.inr (Or.inl ⟨sampleComponents, sampleComponents.parameters,
        rfl, rfl, rfl⟩))),
    (c8_resolve_logic_behavior Parameter sampleSpec "#/components/parameters/"
      paramsSelector).2.2.1 "#/components/parameters/Hop" (by decide)
      (Or.inr (Or.inr (Or.inr ⟨sampleComponents, sampleComponents.parameters,
        "#/components/parameters/Good", rfl, rfl, rfl⟩))),
    (c8_resolve_logic_behavior Parameter sampleSpec "#/components/parameters/"
      paramsSelector).2.2.2 "#/components/parameters/Good" sampleParameter
      sampleComponents sampleComponents.parameters (by decide) rfl rfl rfl⟩

/-- C9 (amended): if every declared parameter before the first
required-but-absent one is observed *and its observed value validates
successfully*, the parameter-set validate call stops at that first
missing-required parameter with exactly one `MissingRequired` finding,
whatever declared parameters (missing-required ones included) follow it. -/
theorem c9_first_missing_required_short_circuits :
    ∀ (pre : List ParameterValidator) (validator : ParameterValidator)
      (post : List ParameterValidator) (params : List (String × Value)),
      (∀ u ∈ pre, ∃ value, getParam params u.name = some value ∧
        u.validate value = .ok ()) →
      validator.required = true →
      getParam params validator.name = none →
      ParametersValidator.validate_parameters (pre ++ validator :: post) params =
        .error (.ValidationFailed (format_drift_error .ParameterMissingRequired
          validator.name
          ("Required parameter '" ++ validator.name ++ "' is missing"))) := by
  intro pre validator post params
  induction pre with
  | nil =>
    intro _ hreq habs
    rw [List.nil_append]
    unfold ParametersValidator.validate_parameters
    simp only [habs, hreq]
    rfl
  | cons u rest ih =>
    intro hpre hreq habs
    obtain ⟨value, hval, hok⟩ := hpre u (List.mem_cons_self u rest)
    rw [List.cons_append]
    unfold ParametersValidator.validate_parameters
    simp only [hval, hok, exceptBindOk]
    exact ih (fun w hw => hpre w (List.mem_cons_of_mem u hw)) hreq habs

/-- Witness for C9: a required, observed, valid parameter followed by a
required absent one yields exactly the missing-required finding for the
absent one. -/
theorem c9_witness :
    ParametersValidator.validate_parameters
        [⟨"ok", true, passAll⟩, ⟨"miss", true, passAll⟩] [("ok", .int 1)] =
      .error (.ValidationFailed (format_drift_error .ParameterMissingRequired
        "miss" ("Required parameter '" ++ "miss" ++ "' is missing"))) :=
  c9_first_missing_required_short_circuits [⟨"ok", true, passAll⟩]
    ⟨"miss", true, passAll⟩ [] [("ok", .int 1)]
    (by
      intro u hu
      rw [List.mem_singleton] at hu
      subst hu
      exact ⟨.int 1, rfl, rfl⟩)
    rfl rfl

/-- A declared parameter "a" whose schema rejects every value with a
type-mismatch finding. -/
def paramA : ParameterValidator := ⟨"a", true, typeInvalid⟩

/-- A declared required parameter "b". -/
def paramB : ParameterValidator := ⟨"b", true, passAll⟩

/-- Counterexample to C9 as stated: "a" (declared before the first
required-absent parameter "b") is observed, so the claim predicts one
`MissingRequired` finding for "b"; the code instead stops with a
type-mismatch finding for "a" and never reaches "b". -/
theorem c9_counterexample :
    ParametersValidator.validate_parameters [paramA, paramB] [("a", .int 1)] =
      .error (.ValidationFailed "[PARAMETER_TYPE_MISMATCH] at a - type mismatch") ∧
    ValidationError.ValidationFailed "[PARAMETER_TYPE_MISMATCH] at a - type mismatch" ≠
      .ValidationFailed (format_drift_error .ParameterMissingRequired "b"
        ("Required parameter '" ++ "b" ++ "' is missing")) :=
  ⟨rfl, by decide⟩

/-- C3 (evaluation at the failing input): compiling a declared required
header parameter produces a parameter-set validator whose header list is
empty — the first match of `build_parameters_validator`'s loop skips
`Header` (together with `Cookie`) before the dispatch that would call
`add_header_parameter` — while a query parameter declared the same way is
compiled into the query list. -/
theorem c3_header_parameter_dropped_at_compile :
    build_parameters_validator ⟨[], none⟩ Registry.ofComponents
        [.Item (.Header ⟨"X-Api-Key", true, .Schema okSchema⟩)] =
      .ok ⟨[], [], []⟩ ∧
    build_parameters_validator ⟨[], none⟩ Registry.ofComponents
        [.Item (.Query ⟨"X-Api-Key", true, .Schema okSchema⟩)] =
      .ok ⟨[], [⟨"X-Api-Key", true, passAll⟩], []⟩ :=
  ⟨rfl, rfl⟩

/-- `filterMap` over findings is empty when the classifier yields none on
every finding. -/
theorem filterMap_inner_none {α β γ : Type} {l : List α} {g : α → Option β}
    {h : α → β → γ} (hg : ∀ e ∈ l, g e = none) :
    l.filterMap (fun e => (g e).map (h e)) = [] :=
  List.filterMap_eq_nil_iff.mpr (fun e he => by rw [hg e he]; rfl)

/-- C1: in each of the three validate paths (parameter, request body,
response body), a value the structural validator reports as invalid but
whose findings all classify to no drift kind yields success, not an error. -/
theorem c1_unclassified_findings_validate_ok :
    (∀ (pv : ParameterValidator) (value : Value),
      pv.validator.is_valid value = false →
      (∀ e ∈ pv.validator.iter_errors value,
        map_to_drift_type e.kind .Parameter = none) →
      pv.validate value = .ok ()) ∧
    (∀ (rbv : RequestBodyValidator) (value : Value),
      rbv.schema.is_valid value = false →
      (∀ e ∈ rbv.schema.iter_errors value,
        map_to_drift_type e.kind .RequestBody = none) →
      rbv.validate (some value) = .ok ()) ∧
    (∀ (rv : ResponseValidator) (status_code : Nat) (validator : Validator)
      (value : Value),
      (getStatus rv.exact status_code).or rv.default = some validator →
      validator.is_valid value = false →
      (∀ e ∈ validator.iter_errors value,
        map_to_drift_type e.kind .ResponseBody = none) →
      rv.validate status_code (some value) = .ok ()) := by
  refine ⟨?_, ?_, ?_⟩
  · intro pv value hinv hnone
    unfold ParameterValidator.validate
    rw [if_neg (by simp [hinv])]
    rw [filterMap_inner_none
      (g := fun e : StructuralError => map_to_drift_type e.kind .Parameter) hnone]
    rfl
  · intro rbv value hinv hnone
    unfold RequestBodyValidator.validate
    dsimp only
    rw [if_neg (by simp [hinv])]
    rw [filterMap_inner_none
      (g := fun e : StructuralError => map_to_drift_type e.kind .RequestBody) hnone]
    rfl
  · intro rv status_code validator value hsel hinv hnone
    unfold ResponseValidator.validate
    rw [hsel]
    dsimp only
    rw [if_neg (by simp [hinv])]
    rw [filterMap_inner_none
      (g := fun e : StructuralError => map_to_drift_type e.kind .ResponseBody) hnone]
    rfl

/-- Witness for C1: a validator rejecting with only a format-violation
finding (outside the five recognized kinds) makes all three validate paths
succeed. -/
theorem c1_witness :
    (ParameterValidator.mk "p" true formatOnlyInvalid).validate (.int 3) = .ok () ∧
    (RequestBodyValidator.mk formatOnlyInvalid true).validate (some (.int 3)) =
      .ok () ∧
    (ResponseValidator.mk [(400, formatOnlyInvalid)] none).validate 400
      (some (.int 3)) = .ok () :=
  ⟨c1_unclassified_findings_validate_ok.1 _ (.int 3) rfl
      (by
        intro e he
        rw [show formatOnlyInvalid.iter_errors (.int 3) =
          [⟨.Format, "", "format violation"⟩] from rfl, List.mem_singleton] at he
        subst he
        rfl),
    c1_unclassified_findings_validate_ok.2.1 _ (.int 3) rfl
      (by
        intro e he
        rw [show formatOnlyInvalid.iter_errors (.int 3) =
          [⟨.Format, "", "format violation"⟩] from rfl, List.mem_singleton] at he
        subst he
        rfl),
    c1_unclassified_findings_validate_ok.2.2 _ 400 formatOnlyInvalid (.int 3) rfl
      rfl
      (by
        intro e he
        rw [show formatOnlyInvalid.iter_errors (.int 3) =
          [⟨.Format, "", "format violation"⟩] from rfl, List.mem_singleton] at he
        subst he
        rfl)⟩

/-! ## Distinguishability machinery for C7: the first character separates the
two lookup-error messages from each other and from every drift-finding
message (which always starts with a bracketed drift kind). -/

/-- The first character of a string. -/
def headChar (s : String) : Option Char := s.data.head?

/-- The head character of an append is the head of its nonempty left part. -/
theorem headChar_append {a : String} (b : String) {c : Char}
    (h : headChar a = some c) : headChar (a ++ b) = some c := by
  unfold headChar at h ⊢
  rw [String.data_append]
  cases ha : a.data with
  | nil => rw [ha] at h; simp at h
  | cons x xs =>
    rw [ha] at h
    simp only [List.head?_cons, Option.some.injEq] at h
    subst h
    simp

/-- Strings with different head characters are different. -/
theorem ne_of_headChar {a b : String} {c d : Char} (ha : headChar a = some c)
    (hb : headChar b = some d) (hcd : c ≠ d) : a ≠ b := by
  intro e
  subst e
  rw [ha] at hb
  exact hcd (Option.some.inj hb)

/-- Every formatted drift finding starts with the opening bracket. -/
theorem headChar_format_drift_error (drift_type : DriftType) (loc msg : String) :
    headChar (format_drift_error drift_type loc msg) = some '[' := by
  unfold format_drift_error
  apply headChar_append
  apply headChar_append
  apply headChar_append
  apply headChar_append
  apply headChar_append
  rfl

/-- `String.intercalate.go` only appends to its accumulator. -/
theorem intercalate_go_data (s : String) :
    ∀ (l : List String) (acc : String),
      ∃ t, (String.intercalate.go acc s l).data = acc.data ++ t := by
  intro l
  induction l with
  | nil =>
    intro acc
    exact ⟨[], by simp [String.intercalate.go]⟩
  | cons a as ih =>
    intro acc
    obtain ⟨t, ht⟩ := ih (acc ++ s ++ a)
    refine ⟨s.data ++ (a.data ++ t), ?_⟩
    rw [show String.intercalate.go acc s (a :: as) =
      String.intercalate.go (acc ++ s ++ a) s as from rfl, ht]
    simp [String.data_append, List.append_assoc]

/-- The head character of a joined nonempty message list is the head of its
first message. -/
theorem headChar_intercalate {x : String} (xs : List String) {c : Char}
    (h : headChar x = some c) :
    headChar (String.intercalate "; " (x :: xs)) = some c := by
  obtain ⟨t, ht⟩ := intercalate_go_data "; " xs x
  unfold headChar at h ⊢
  rw [show String.intercalate "; " (x :: xs) =
    String.intercalate.go x "; " xs from rfl, ht]
  cases hx : x.data with
  | nil => rw [hx] at h; simp at h
  | cons y ys =>
    rw [hx] at h
    simp only [List.head?_cons, Option.some.injEq] at h
    subst h
    simp

/-- Joining a nonempty list of formatted drift findings yields a message
opening with the bracket character. -/
theorem driftJoin_headChar (L : List String)
    (hform : ∀ x ∈ L, ∃ d loc m, x = format_drift_error d loc m)
    (hne : L ≠ []) : headChar (String.intercalate "; " L) = some '[' := by
  cases L with
  | nil => exact absurd rfl hne
  | cons x xs =>
    obtain ⟨d, loc, m, hx⟩ := hform x (List.mem_cons_self x xs)
    apply headChar_intercalate
    rw [hx]
    exact headChar_format_drift_error d loc m

/-- Every error of `ParameterValidator::validate` is a `ValidationFailed`
whose message opens with a bracketed drift kind. -/
theorem param_validate_error_shape {pv : ParameterValidator} {value : Value}
    {err : ValidationError} (h : pv.validate value = .error err) :
    ∃ s, err = .ValidationFailed s ∧ headChar s = some '[' := by
  unfold ParameterValidator.validate at h
  split at h
  · exact absurd h (by simp)
  · try dsimp only at h
    split at h
    · exact absurd h (by simp)
    · rename_i hne
      rw [Except.error.injEq] at h
      refine ⟨_, h.symm, ?_⟩
      apply driftJoin_headChar
      · intro x hx
        rcases List.mem_filterMap.mp hx with ⟨e, _, he⟩
        rcases Option.map_eq_some'.mp he with ⟨dt, _, hdt⟩
        try dsimp only at hdt
        exact ⟨dt, _, _, hdt.symm⟩
      · intro h0
        rw [h0] at hne
        exact hne rfl

/-- Every error of `RequestBodyValidator::validate` is a `ValidationFailed`
whose message opens with a bracketed drift kind. -/
theorem request_validate_error_shape {rbv : RequestBodyValidator}
    {body : Option Value} {err : ValidationError}
    (h : rbv.validate body = .error err) :
    ∃ s, err = .ValidationFailed s ∧ headChar s = some '[' := by
  unfold RequestBodyValidator.validate at h
  cases body with
  | none =>
    try dsimp only at h
    split at h
    · rw [Except.error.injEq] at h
      exact ⟨_, h.symm, headChar_format_drift_error _ _ _⟩
    · exact absurd h (by simp)
  | some value =>
    try dsimp only at h
    split at h
    · exact absurd h (by simp)
    · try dsimp only at h
      split at h
      · exact absurd h (by simp)
      · rename_i hne
        rw [Except.error.injEq] at h
        refine ⟨_, h.symm, ?_⟩
        apply driftJoin_headChar
        · intro x hx
          rcases List.mem_filterMap.mp hx with ⟨e, _, he⟩
          rcases Option.map_eq_some'.mp he with ⟨dt, _, hdt⟩
          try dsimp only at hdt
          exact ⟨dt, _, _, hdt.symm⟩
        · intro h0
          rw [h0] at hne
          exact hne rfl

/-- Every error of `ResponseValidator::validate` is either the
`NoSchemaForStatusCode` selection error or a `ValidationFailed` whose message
opens with a bracketed drift kind. -/
theorem response_validate_error_shape {rv : ResponseValidator}
    {status_code : Nat} {body : Option Value} {err : ValidationError}
    (h : rv.validate status_code body = .error err) :
    err = .NoSchemaForStatusCode status_code ∨
      ∃ s, err = .ValidationFailed s ∧ headChar s = some '[' := by
  unfold ResponseValidator.validate at h
  cases hsel : (getStatus rv.exact status_code).or rv.default with
  | none =>
    rw [hsel] at h
    try dsimp only at h
    rw [Except.error.injEq] at h
    exact Or.inl h.symm
  | some validator =>
    rw [hsel] at h
    try dsimp only at h
    cases body with
    | none => exact absurd h (by simp)
    | some value =>
      try dsimp only at h
      split at h
      · exact absurd h (by simp)
      · try dsimp only at h
        split at h
        · exact absurd h (by simp)
        · rename_i hne
          rw [Except.error.injEq] at h
          refine Or.inr ⟨_, h.symm, ?_⟩
          apply driftJoin_headChar
          · intro x hx
            rcases List.mem_filterMap.mp hx with ⟨e, _, he⟩
            rcases Option.map_eq_some'.mp he with ⟨dt, _, hdt⟩
            try dsimp only at hdt
            exact ⟨dt, _, _, hdt.symm⟩
          · intro h0
            rw [h0] at hne
            exact hne rfl

/-- Every error of `ParametersValidator::validate_parameters` is a
`ValidationFailed` whose message opens with a bracketed drift kind. -/
theorem validate_parameters_error_shape {validators : List ParameterValidator}
    {params : List (String × Value)} {err : ValidationError}
    (h : ParametersValidator.validate_parameters validators params = .error err) :
    ∃ s, err = .ValidationFailed s ∧ headChar s = some '[' := by
  induction validators with
  | nil => exact absurd h (by simp [ParametersValidator.validate_parameters])
  | cons validator rest ih =>
    unfold ParametersValidator.validate_parameters at h
    split at h
    · rename_i value heq
      cases hv : validator.validate value with
      | ok u =>
        rw [hv, exceptBindOk] at h
        exact ih h
      | error e =>
        rw [hv, exceptBindError, Except.error.injEq] at h
        exact h ▸ param_validate_error_shape hv
    · split at h
      · rw [Except.error.injEq] at h
        exact ⟨_, h.symm, headChar_format_drift_error _ _ _⟩
      · exact ih h

/-- C7: lookup of a path no registered pattern matches yields the "no route"
error; lookup of a matched pattern whose method map lacks the method yields
the "method not allowed" error; the two are distinguishable from each other,
and every drift-finding error any validator emits differs from both (drift
messages open with a bracketed drift kind; the response validator's
`NoSchemaForStatusCode` is a distinct constructor outright). -/
theorem c7_lookup_errors_distinguishable :
    (∀ (av : ApiValidator) (path : String) (method : HttpMethod),
      atEntry av.router (splitPath path) = none →
      av.find_operation path method =
        .error (.ValidationFailed ("No route found for path: " ++ path))) ∧
    (∀ (av : ApiValidator) (path : String) (method : HttpMethod)
      (matched : RouterEntry OperationMap),
      atEntry av.router (splitPath path) = some matched →
      getMethod matched.value method = none →
      av.find_operation path method =
        .error (.ValidationFailed
          ("Method " ++ method.as_str ++ " not allowed for path: " ++ path))) ∧
    (∀ (p q : String) (method : HttpMethod),
      ValidationError.ValidationFailed ("No route found for path: " ++ p) ≠
        .ValidationFailed
          ("Method " ++ method.as_str ++ " not allowed for path: " ++ q)) ∧
    (∀ (pv : ParameterValidator) (value : Value) (err : ValidationError)
      (p q : String) (method : HttpMethod),
      pv.validate value = .error err →
      err ≠ .ValidationFailed ("No route found for path: " ++ p) ∧
      err ≠ .ValidationFailed
        ("Method " ++ method.as_str ++ " not allowed for path: " ++ q)) ∧
    (∀ (rbv : RequestBodyValidator) (body : Option Value) (err : ValidationError)
      (p q : String) (method : HttpMethod),
      rbv.validate body = .error err →
      err ≠ .ValidationFailed ("No route found for path: " ++ p) ∧
      err ≠ .ValidationFailed
        ("Method " ++ method.as_str ++ " not allowed for path: " ++ q)) ∧
    (∀ (rv : ResponseValidator) (status_code : Nat) (body : Option Value)
      (err : ValidationError) (p q : String) (method : HttpMethod),
      rv.validate status_code body = .error err →
      err ≠ .ValidationFailed ("No route found for path: " ++ p) ∧
      err ≠ .ValidationFailed
        ("Method " ++ method.as_str ++ " not allowed for path: " ++ q)) ∧
    (∀ (validators : List ParameterValidator) (params : List (String × Value))
      (err : ValidationError) (p q : String) (method : HttpMethod),
      ParametersValidator.validate_parameters validators params = .error err →
      err ≠ .ValidationFailed ("No route found for path: " ++ p) ∧
      err ≠ .ValidationFailed
        ("Method " ++ method.as_str ++ " not allowed for path: " ++ q)) := by
  have hN : ∀ p : String,
      headChar ("No route found for path: " ++ p) = some 'N' :=
    fun p => headChar_append p (by rfl)
  have hM : ∀ (method : HttpMethod) (q : String),
      headChar ("Method " ++ method.as_str ++ " not allowed for path: " ++ q) =
        some 'M' :=
    fun method q =>
      headChar_append q (headChar_append _ (headChar_append _ (by rfl)))
  have hdrift : ∀ {err : ValidationError},
      (∃ s, err = .ValidationFailed s ∧ headChar s = some '[') →
      ∀ (p q : String) (method : HttpMethod),
        err ≠ .ValidationFailed ("No route found for path: " ++ p) ∧
        err ≠ .ValidationFailed
          ("Method " ++ method.as_str ++ " not allowed for path: " ++ q) := by
    rintro err ⟨s, rfl, hs⟩ p q method
    constructor
    · intro he
      rw [ValidationError.ValidationFailed.injEq] at he
      exact ne_of_headChar hs (hN p) (by decide) he
    · intro he
      rw [ValidationError.ValidationFailed.injEq] at he
      exact ne_of_headChar hs (hM method q) (by decide) he
  refine ⟨?_, ?_, ?_, ?_, ?_, ?_, ?_⟩
  · intro av path method hat
    unfold ApiValidator.find_operation
    rw [hat]
  · intro av path method matched hat hm
    unfold ApiValidator.find_operation
    rw [hat]
    try dsimp only
    rw [hm]
  · intro p q method he
    rw [ValidationError.ValidationFailed.injEq] at he
    exact ne_of_headChar (hN p) (hM method q) (by decide) he
  · intro pv value err p q method h
    exact hdrift (param_validate_error_shape h) p q method
  · intro rbv body err p q method h
    exact hdrift (request_validate_error_shape h) p q method
  · intro rv status_code body err p q method h
    rcases response_validate_error_shape h with hno | hfs
    · subst hno
      exact ⟨(by intro he; cases he), (by intro he; cases he)⟩
    · exact hdrift hfs p q method
  · intro validators params err p q method h
    exact hdrift (validate_parameters_error_shape h) p q method

/-- A router holding the single pattern `/x` with an empty method map. -/
def routeOnlyApi : ApiValidator := ⟨[⟨[.lit "", .lit "x"], []⟩]⟩

/-- A request body validator with a rejecting schema and `required = true`. -/
def requiredBodyValidator : RequestBodyValidator := ⟨typeInvalid, true⟩

/-- Witness for C7: the two lookup errors at concrete inputs, their mutual
distinctness, and the distinctness from concrete drift findings of each
validator family. -/
theorem c7_witness :
    ApiValidator.new.find_operation "/x" .GET =
      .error (.ValidationFailed ("No route found for path: " ++ "/x")) ∧
    routeOnlyApi.find_operation "/x" .GET =
      .error (.ValidationFailed ("Method " ++ HttpMethod.GET.as_str ++
        " not allowed for path: " ++ "/x")) ∧
    (ValidationError.ValidationFailed ("No route found for path: " ++ "/a") ≠
      .ValidationFailed ("Method " ++ HttpMethod.GET.as_str ++
        " not allowed for path: " ++ "/b")) ∧
    (ValidationError.ValidationFailed
        "[PARAMETER_TYPE_MISMATCH] at a - type mismatch" ≠
      .ValidationFailed ("No route found for path: " ++ "/a") ∧
      ValidationError.ValidationFailed
        "[PARAMETER_TYPE_MISMATCH] at a - type mismatch" ≠
      .ValidationFailed ("Method " ++ HttpMethod.GET.as_str ++
        " not allowed for path: " ++ "/b")) ∧
    (ValidationError.ValidationFailed (format_drift_error
        .RequestBodyMissingRequired "body" "Request body is required but missing") ≠
      .ValidationFailed ("No route found for path: " ++ "/a") ∧
      ValidationError.ValidationFailed (format_drift_error
        .RequestBodyMissingRequired "body" "Request body is required but missing") ≠
      .ValidationFailed ("Method " ++ HttpMethod.GET.as_str ++
        " not allowed for path: " ++ "/b")) ∧
    (ValidationError.NoSchemaForStatusCode 500 ≠
      .ValidationFailed ("No route found for path: " ++ "/a") ∧
      ValidationError.NoSchemaForStatusCode 500 ≠
      .ValidationFailed ("Method " ++ HttpMethod.GET.as_str ++
        " not allowed for path: " ++ "/b")) ∧
    (ValidationError.ValidationFailed (format_drift_error
        .ParameterMissingRequired "a" ("Required parameter '" ++ "a" ++ "' is missing")) ≠
      .ValidationFailed ("No route found for path: " ++ "/a") ∧
      ValidationError.ValidationFailed (format_drift_error
        .ParameterMissingRequired "a" ("Required parameter '" ++ "a" ++ "' is missing")) ≠
      .ValidationFailed ("Method " ++ HttpMethod.GET.as_str ++
        " not allowed for path: " ++ "/b")) :=
  ⟨c7_lookup_errors_distinguishable.1 ApiValidator.new "/x" .GET rfl,
    ⟨c7_lookup_errors_distinguishable.2.1 routeOnlyApi "/x" .GET
      ⟨[.lit "", .lit "x"], []⟩ rfl rfl,
    ⟨c7_lookup_errors_distinguishable.2.2.1 "/a" "/b" .GET,
    ⟨c7_lookup_errors_distinguishable.2.2.2.1 paramA (.int 1)
      (.ValidationFailed "[PARAMETER_TYPE_MISMATCH] at a - type mismatch")
      "/a" "/b" .GET rfl,
    ⟨c7_lookup_errors_distinguishable.2.2.2.2.1 requiredBodyValidator none
      (.ValidationFailed (format_drift_error .RequestBodyMissingRequired "body"
        "Request body is required but missing")) "/a" "/b" .GET rfl,
    ⟨c7_lookup_errors_distinguishable.2.2.2.2.2.1 ResponseValidator.new 500 none
      (.NoSchemaForStatusCode 500) "/a" "/b" .GET rfl,
    c7_lookup_errors_distinguishable.2.2.2.2.2.2 [paramA] []
      (.ValidationFailed (format_drift_error .ParameterMissingRequired "a"
        ("Required parameter '" ++ "a" ++ "' is missing"))) "/a" "/b" .GET rfl⟩⟩⟩⟩⟩⟩

/-! ## Route-index registration invariants (C10) -/

/-- The patterns registered in a router, in order. -/
def patterns {α : Type} (r : Router α) : List (List Seg) := r.map (·.pattern)

/-- Any sequence of build-time registrations, applied through
`add_operation` (aborting on the first error, as the builder's `?` does). -/
def applyRegs (av : ApiValidator) :
    List (String × HttpMethod × OperationValidator) →
    Except ValidationError ApiValidator
  | [] => .ok av
  | (path, method, validator) :: rest => do
    let av' ← av.add_operation path method validator
    applyRegs av' rest

/-- A pattern segment matches its own rendering. -/
theorem seg_matches_parseSeg (s : String) : seg_matches (parseSeg s) s = true := by
  unfold parseSeg
  split
  · rfl
  · simp [seg_matches]

/-- A parsed pattern matches the segment list it was parsed from. -/
theorem pat_matches_parse (l : List String) :
    pat_matches (l.map parseSeg) l = true := by
  induction l with
  | nil => rfl
  | cons s rest ih => simp [pat_matches, seg_matches_parseSeg, ih]

/-- A registered pattern matches its own source path. -/
theorem parsePattern_self_match (p : String) :
    pat_matches (parsePattern p) (splitPath p) = true :=
  pat_matches_parse (splitPath p)

/-- When no entry index matches, no registered pattern matches. -/
theorem findMatch_eq_none_forall {α : Type} {r : Router α} {segs : List String}
    (h : findMatch r segs = none) :
    ∀ e ∈ r, pat_matches e.pattern segs = false := by
  induction r with
  | nil => intro e he; cases he
  | cons a rest ih =>
    unfold findMatch at h
    by_cases hm : pat_matches a.pattern segs = true
    · rw [if_pos hm] at h
      cases h
    · rw [if_neg hm] at h
      intro e he
      rcases List.mem_cons.mp he with rfl | he'
      · exact Bool.not_eq_true _ ▸ (by simpa using hm)
      · exact ih (Option.map_eq_none'.mp h) e he'

/-- A matched index points at an entry whose pattern matches, and `atEntry`
returns exactly that entry. -/
theorem findMatch_spec {α : Type} {r : Router α} {segs : List String} {i : Nat}
    (h : findMatch r segs = some i) :
    ∃ e, r[i]? = some e ∧ pat_matches e.pattern segs = true ∧
      atEntry r segs = some e := by
  induction r generalizing i with
  | nil => cases h
  | cons a rest ih =>
    unfold findMatch at h
    by_cases hm : pat_matches a.pattern segs = true
    · rw [if_pos hm] at h
      injection h with h0
      subst h0
      exact ⟨a, by simp, hm, by simp [atEntry, List.find?, hm]⟩
    · rw [if_neg hm] at h
      rcases Option.map_eq_some'.mp h with ⟨j, hj, hij⟩
      subst hij
      obtain ⟨e, hget, hpat, hat⟩ := ih hj
      refine ⟨e, by simpa using hget, hpat, ?_⟩
      have hm' : pat_matches a.pattern segs = false := by
        simpa using hm
      simp [atEntry, List.find?, hm']
      simpa [atEntry] using hat

/-- `modifyIdx` keeps the length. -/
theorem length_modifyIdx {β : Type} (r : List β) (i : Nat) (f : β → β) :
    (modifyIdx r i f).length = r.length := by
  induction r generalizing i with
  | nil => rfl
  | cons b rest ih =>
    cases i with
    | zero => rfl
    | succ n => simp [modifyIdx, ih]

/-- `modifyIdx` applies the function at the index. -/
theorem getElem?_modifyIdx {β : Type} (r : List β) (i : Nat) (f : β → β) :
    (modifyIdx r i f)[i]? = (r[i]?).map f := by
  induction r generalizing i with
  | nil => cases i <;> rfl
  | cons b rest ih =>
    cases i with
    | zero => simp [modifyIdx]
    | succ n => simpa [modifyIdx] using ih n

/-- Membership in a modified router comes from the original router, possibly
through the modification function. -/
theorem mem_modifyIdx {β : Type} {r : List β} {i : Nat} {f : β → β} {b : β}
    (h : b ∈ modifyIdx r i f) : b ∈ r ∨ ∃ a ∈ r, b = f a := by
  induction r generalizing i with
  | nil => cases h
  | cons a rest ih =>
    cases i with
    | zero =>
      rcases List.mem_cons.mp h with rfl | h'
      · exact Or.inr ⟨a, List.mem_cons_self a rest, rfl⟩
      · exact Or.inl (List.mem_cons_of_mem a h')
    | succ n =>
      rcases List.mem_cons.mp h with rfl | h'
      · exact Or.inl (List.mem_cons_self _ _)
      · rcases ih h' with h'' | ⟨c, hc, hbc⟩
        · exact Or.inl (List.mem_cons_of_mem a h'')
        · exact Or.inr ⟨c, List.mem_cons_of_mem a hc, hbc⟩

/-- A pattern-preserving modification keeps the pattern list. -/
theorem patterns_modifyIdx {α : Type} {f : RouterEntry α → RouterEntry α}
    (hf : ∀ e, (f e).pattern = e.pattern) (r : Router α) (i : Nat) :
    patterns (modifyIdx r i f) = patterns r := by
  induction r generalizing i with
  | nil => rfl
  | cons a rest ih =>
    cases i with
    | zero => simp [modifyIdx, patterns, hf a]
    | succ n => simpa [modifyIdx, patterns] using ih n

/-- A pattern-preserving modification does not change which index matches. -/
theorem findMatch_modifyIdx {α : Type} {f : RouterEntry α → RouterEntry α}
    (hf : ∀ e, (f e).pattern = e.pattern) (r : Router α) (i : Nat)
    (segs : List String) :
    findMatch (modifyIdx r i f) segs = findMatch r segs := by
  induction r generalizing i with
  | nil => rfl
  | cons a rest ih =>
    cases i with
    | zero => simp [modifyIdx, findMatch, hf a]
    | succ n => simp [modifyIdx, findMatch, ih n]

/-- Appending a matching entry to an unmatched router matches at the end. -/
theorem findMatch_append {α : Type} {r : Router α} {segs : List String}
    (hnone : findMatch r segs = none) (e : RouterEntry α)
    (hm : pat_matches e.pattern segs = true) :
    findMatch (r ++ [e]) segs = some r.length := by
  induction r with
  | nil => simp [findMatch, hm]
  | cons a rest ih =>
    simp only [findMatch, List.cons_append, List.append_eq] at hnone ⊢
    by_cases ha : pat_matches a.pattern segs = true
    · rw [if_pos ha] at hnone
      cases hnone
    · rw [if_neg ha] at hnone ⊢
      rw [ih (Option.map_eq_none'.mp hnone)]
      simp

/-- `HashMap::insert` stores the new value under the method. -/
theorem getMethod_insertMethod {α : Type} (m : HttpMethod) (v : α)
    (ops : List (HttpMethod × α)) :
    getMethod (insertMethod m v ops) m = some v := by
  simp [insertMethod, getMethod]

/-- `HashMap::insert` keeps method keys distinct. -/
theorem insertMethod_keys_nodup {α : Type} (m : HttpMethod) (v : α)
    {ops : List (HttpMethod × α)} (h : (ops.map Prod.fst).Nodup) :
    ((insertMethod m v ops).map Prod.fst).Nodup := by
  unfold insertMethod
  rw [List.map_cons]
  refine List.nodup_cons.mpr ⟨?_, ?_⟩
  · intro hmem
    rcases List.mem_map.mp hmem with ⟨q, hq, hq1⟩
    rcases List.mem_filter.mp hq with ⟨_, hq_ne⟩
    rw [decide_eq_true_eq] at hq_ne
    exact hq_ne hq1
  · exact List.Nodup.sublist ((List.filter_sublist ops).map Prod.fst) h

/-- The route-index invariant: registered patterns are pairwise distinct and
each method map holds each method at most once. -/
def routerInvariant (av : ApiValidator) : Prop :=
  (patterns av.router).Pairwise (· ≠ ·) ∧
  ∀ e ∈ av.router, (e.value.map Prod.fst).Nodup

/-- One `add_operation` call preserves the route-index invariant. -/
theorem add_operation_preserves_invariant {av av' : ApiValidator}
    {path : String} {method : HttpMethod} {validator : OperationValidator}
    (hinv : routerInvariant av)
    (h : av.add_operation path method validator = .ok av') :
    routerInvariant av' := by
  unfold ApiValidator.add_operation at h
  cases hf : findMatch av.router (splitPath path) with
  | some i =>
    rw [hf, Except.ok.injEq] at h
    subst h
    refine ⟨?_, ?_⟩
    · rw [patterns_modifyIdx
        (f := fun e => ⟨e.pattern, insertMethod method validator e.value⟩)
        (fun e => rfl)]
      exact hinv.1
    · intro e he
      rcases mem_modifyIdx he with he' | ⟨a, ha, rfl⟩
      · exact hinv.2 e he'
      · exact insertMethod_keys_nodup method validator (hinv.2 a ha)
  | none =>
    rw [hf, Except.ok.injEq] at h
    subst h
    refine ⟨?_, ?_⟩
    · rw [show patterns (av.router ++ [⟨parsePattern path,
        insertMethod method validator []⟩]) =
          patterns av.router ++ [parsePattern path] from List.map_append _ _ _]
      refine List.pairwise_append.mpr ⟨hinv.1, List.pairwise_singleton _ _, ?_⟩
      intro a ha b hb
      rw [List.mem_singleton] at hb
      subst hb
      rcases List.mem_map.mp ha with ⟨e, he, rfl⟩
      intro heq
      have hfalse := findMatch_eq_none_forall hf e he
      rw [heq, parsePattern_self_match] at hfalse
      cases hfalse
    · intro e he
      rcases List.mem_append.mp he with he' | he'
      · exact hinv.2 e he'
      · rw [List.mem_singleton] at he'
        subst he'
        simp [insertMethod, getMethod]

/-- C10: starting from an empty route index, any sequence of registrations
leaves at most one stored operation validator per (pattern, method) pair —
registered patterns stay pairwise distinct and each pattern's method map
holds each method at most once — and re-registering a method on an
already-registered pattern is not rejected: it succeeds, adds no entry, and
the matched entry's map afterwards holds the new validator for the method. -/
theorem c10_route_index_at_most_one_and_overwrite :
    (∀ (regs : List (String × HttpMethod × OperationValidator))
      (av : ApiValidator),
      applyRegs ApiValidator.new regs = .ok av →
      (patterns av.router).Pairwise (· ≠ ·) ∧
      ∀ e ∈ av.router, (e.value.map Prod.fst).Nodup) ∧
    (∀ (av av₁ : ApiValidator) (path : String) (method : HttpMethod)
      (v₁ v₂ : OperationValidator),
      av.add_operation path method v₁ = .ok av₁ →
      ∃ av₂, av₁.add_operation path method v₂ = .ok av₂ ∧
        av₂.router.length = av₁.router.length ∧
        ∃ matched, atEntry av₂.router (splitPath path) = some matched ∧
          getMethod matched.value method = some v₂) := by
  constructor
  · have hgen : ∀ (regs : List (String × HttpMethod × OperationValidator))
        (av av' : ApiValidator), routerInvariant av →
        applyRegs av regs = .ok av' → routerInvariant av' := by
      intro regs
      induction regs with
      | nil =>
        intro av av' hinv h
        unfold applyRegs at h
        rw [Except.ok.injEq] at h
        exact h ▸ hinv
      | cons reg rest ih =>
        intro av av' hinv h
        obtain ⟨path, method, validator⟩ := reg
        unfold applyRegs at h
        cases ha : av.add_operation path method validator with
        | ok av1 =>
          rw [ha, exceptBindOk] at h
          exact ih av1 av' (add_operation_preserves_invariant hinv ha) h
        | error e =>
          rw [ha, exceptBindError] at h
          cases h
    intro regs av h
    exact hgen regs ApiValidator.new av ⟨List.Pairwise.nil, by intro e he; cases he⟩ h
  · intro av av₁ path method v₁ v₂ h₁
    unfold ApiValidator.add_operation at h₁ ⊢
    cases hf : findMatch av.router (splitPath path) with
    | some i =>
      rw [hf, Except.ok.injEq] at h₁
      have hf₁ : findMatch av₁.router (splitPath path) = some i := by
        rw [← h₁]
        exact (findMatch_modifyIdx
          (f := fun e => ⟨e.pattern, insertMethod method v₁ e.value⟩)
          (fun e => rfl) av.router i _).trans hf
      rw [hf₁]
      refine ⟨_, rfl, ?_, ?_⟩
      · exact length_modifyIdx _ _ _
      · have hf₂ : findMatch (modifyIdx av₁.router i
            (fun e => ⟨e.pattern, insertMethod method v₂ e.value⟩))
            (splitPath path) = some i :=
          (findMatch_modifyIdx
            (f := fun e => ⟨e.pattern, insertMethod method v₂ e.value⟩)
            (fun e => rfl) av₁.router i _).trans hf₁
        obtain ⟨e₂, hget₂, _, hat₂⟩ := findMatch_spec hf₂
        refine ⟨e₂, hat₂, ?_⟩
        rw [getElem?_modifyIdx] at hget₂
        rcases Option.map_eq_some'.mp hget₂ with ⟨e₁, _, he₂⟩
        rw [← he₂]
        exact getMethod_insertMethod method v₂ e₁.value
    | none =>
      rw [hf, Except.ok.injEq] at h₁
      have hf₁ : findMatch av₁.router (splitPath path) =
          some av.router.length := by
        rw [← h₁]
        exact findMatch_append hf _ (parsePattern_self_match path)
      rw [hf₁]
      refine ⟨_, rfl, ?_, ?_⟩
      · exact length_modifyIdx _ _ _
      · have hf₂ : findMatch (modifyIdx av₁.router av.router.length
            (fun e => ⟨e.pattern, insertMethod method v₂ e.value⟩))
            (splitPath path) = some av.router.length :=
          (findMatch_modifyIdx
            (f := fun e => ⟨e.pattern, insertMethod method v₂ e.value⟩)
            (fun e => rfl) av₁.router _ _).trans hf₁
        obtain ⟨e₂, hget₂, _, hat₂⟩ := findMatch_spec hf₂
        refine ⟨e₂, hat₂, ?_⟩
        rw [getElem?_modifyIdx] at hget₂
        rcases Option.map_eq_some'.mp hget₂ with ⟨e₁, _, he₂⟩
        rw [← he₂]
        exact getMethod_insertMethod method v₂ e₁.value

/-- An operation validator fixture. -/
def opFixture : OperationValidator :=
  ⟨none, ResponseValidator.new, ParametersValidator.new⟩

/-- A second, different operation validator fixture. -/
def opFixture2 : OperationValidator :=
  ⟨some requiredBodyValidator, ResponseValidator.new, ParametersValidator.new⟩

/-- Witness for C10: registering `/a` GET from the empty index satisfies the
invariant, and re-registering `/a` GET overwrites in place. -/
theorem c10_witness :
    ((patterns (ApiValidator.mk
        [⟨[Seg.lit "", Seg.lit "a"], [(HttpMethod.GET, opFixture)]⟩]).router).Pairwise
        (· ≠ ·) ∧
      ∀ e ∈ (ApiValidator.mk
        [⟨[Seg.lit "", Seg.lit "a"], [(HttpMethod.GET, opFixture)]⟩]).router,
        (e.value.map Prod.fst).Nodup) ∧
    ∃ av₂, (ApiValidator.mk
        [⟨[Seg.lit "", Seg.lit "a"], [(HttpMethod.GET, opFixture)]⟩]).add_operation
          "/a" .GET opFixture2 = .ok av₂ ∧
      av₂.router.length = (ApiValidator.mk
        [⟨[Seg.lit "", Seg.lit "a"], [(HttpMethod.GET, opFixture)]⟩]).router.length ∧
      ∃ matched, atEntry av₂.router (splitPath "/a") = some matched ∧
        getMethod matched.value .GET = some opFixture2 :=
  ⟨c10_route_index_at_most_one_and_overwrite.1 [("/a", .GET, opFixture)]
      (ApiValidator.mk [⟨[Seg.lit "", Seg.lit "a"],
        [(HttpMethod.GET, opFixture)]⟩]) rfl,
    c10_route_index_at_most_one_and_overwrite.2 ApiValidator.new
      (ApiValidator.mk [⟨[Seg.lit "", Seg.lit "a"],
        [(HttpMethod.GET, opFixture)]⟩]) "/a" .GET opFixture opFixture2 rfl⟩

end DriftMonitor
